import Mathlib

/-!
# Verification of the kaiwadb schema-definition layer

A shallow embedding of the kaiwadb repository (`src/kaiwadb/document.py`,
`src/kaiwadb/types/object_id.py`) together with the behaviour of the two
third-party collaborators those files program against:

* pydantic's field/alias machinery (`PydanticField(default, alias, description)`
  and model validation with the default configuration, where an aliased field is
  populated from the alias key only), and
* bson's native `ObjectId` type (construction from a length-24 string via
  `bytes.fromhex`, which accepts both letter cases and skips ASCII whitespace
  between byte pairs; canonical rendering `str(oid)` as 24 lowercase
  hexadecimal characters).

Python exceptions are modelled with `Except`; machine bytes are `Nat` values
below 256.
-/

namespace KaiwaDB

/-! ## Errors

`PyError` gathers the exceptions that the embedded code can raise:
`NotImplementedError` (raised by `Field` in `document.py`) and
`bson.errors.InvalidId` (raised by the native `ObjectId` constructor).
-/

inductive PyError where
  | notImplementedError (msg : String)
  | invalidId (s : String)
  deriving DecidableEq

/-- Validation failures raised by the pydantic layer when a model instance is
constructed: a required field whose (aliased) key is absent from the input
mapping, or a JSON value of the wrong primitive kind. pydantic collects all
field errors into one `ValidationError`; this embedding keeps the first, which
preserves success versus failure. -/
inductive ValidationError where
  | missing (field : String)
  | stringType
  deriving DecidableEq

/-! ## The field descriptor factory (`src/kaiwadb/document.py`) -/

/-- Python's `default: Any = ...` convention: `ellipsis` is the required-field
marker, `value v` an actual default. -/
inductive PyDefault (α : Type) where
  | ellipsis
  | value (v : α)
  deriving DecidableEq

/-- The descriptor produced by `PydanticField(default=default, alias=db_name,
description=description)` — the data the `Field` call in `document.py` forwards
to pydantic. -/
structure FieldInfo (α : Type) where
  default : PyDefault α
  «alias» : Option String
  description : Option String
  deriving DecidableEq

/-- A concrete schema subclass of `Document` (`document.py`): the three
class-level metadata slots `__collection__`, `__table__`, `__description__`,
plus the declared fields (attribute name paired with the descriptor built by
`Field`), in declaration order. -/
structure Document (α : Type) where
  collection : Option String := none
  table : Option String := none
  descr : Option String := none
  fields : List (String × FieldInfo α)

/-- The `relation` argument of `Field`:
`None | tuple[Document, str] | list[tuple[Document, str]]`, with `None`
represented by `Option` at the call site. -/
def RelationSpec (α : Type) : Type :=
  Document α × String ⊕ List (Document α × String)

/-- `Field` from `src/kaiwadb/document.py`: raises `NotImplementedError` when
`examples` is not `None`, then when `relation` is not `None`, and otherwise
returns `PydanticField(default=default, alias=db_name, description=description)`. -/
def Field (default : PyDefault α) (db_name : Option String)
    (description : Option String) (examples : Option (List α))
    (relation : Option (RelationSpec α)) : Except PyError (FieldInfo α) :=
  if examples.isSome then
    Except.error (PyError.notImplementedError "Field examples are not yet implemented")
  else if relation.isSome then
    Except.error (PyError.notImplementedError "Field relations are not yet implemented")
  else
    Except.ok { default := default, «alias» := db_name, description := description }

/-! ## pydantic model validation and serialization

`Document` sets no `model_config`, so pydantic's defaults apply: a field that
has an alias is populated from the alias key only (`populate_by_name` is off),
and a field without an alias is populated from its declared attribute name.
Input mappings are association lists; `lookupKey` is dictionary lookup.
-/

/-- Dictionary lookup in an input mapping (first binding wins). -/
def lookupKey (input : List (String × α)) (k : String) : Option α :=
  (input.find? (fun p => p.1 == k)).map Prod.snd

/-- The external (structured/aliased) name of a declared field: the alias when
one was given, otherwise the declared attribute name. -/
def fieldExternalName (name : String) (fi : FieldInfo α) : String :=
  fi.«alias».getD name

/-- Populate one declared field from the input mapping: look the external name
up; fall back to the default; fail with a `missing` validation error when the
field is required and its external key is absent. -/
def validateField (input : List (String × α)) (name : String)
    (fi : FieldInfo α) : Except ValidationError α :=
  match lookupKey input (fieldExternalName name fi) with
  | some v => Except.ok v
  | none =>
    match fi.default with
    | PyDefault.value d => Except.ok d
    | PyDefault.ellipsis => Except.error (ValidationError.missing name)

/-- Populate every declared field, in declaration order. -/
def validateFields (fields : List (String × FieldInfo α))
    (input : List (String × α)) : Except ValidationError (List (String × α)) :=
  match fields with
  | [] => Except.ok []
  | (name, fi) :: rest =>
    match validateField input name fi with
    | Except.error e => Except.error e
    | Except.ok v =>
      match validateFields rest input with
      | Except.error e => Except.error e
      | Except.ok out => Except.ok ((name, v) :: out)

/-- A concrete schema declaring a single field: attribute `name` with
descriptor `fi`, and no class-level metadata. -/
def singleFieldSchema (name : String) (fi : FieldInfo α) : Document α :=
  { fields := [(name, fi)] }

/-- Constructing an instance of a concrete schema from an external mapping
(`Model.model_validate(data)` / `Model(**data)`): each declared field is
populated from its external name; extra input keys are ignored (pydantic's
default). The result binds declared attribute names to values. -/
def modelValidate (doc : Document α) (input : List (String × α)) :
    Except ValidationError (List (String × α)) :=
  validateFields doc.fields input

/-- Serializing an instance back to external structured form
(`model_dump(by_alias=True)`): each declared field is emitted under its
external name. -/
def modelDumpByAlias (doc : Document α) (vals : List (String × α)) :
    List (String × α) :=
  doc.fields.filterMap
    (fun p => (lookupKey vals p.1).map (fun v => (fieldExternalName p.1 p.2, v)))

/-! ## The native identifier type (bson `ObjectId`)

Not part of this repository: `src/kaiwadb/types/object_id.py` subclasses
`bson.ObjectId`, whose behaviour is modelled here. A native identifier value is
normally 12 bytes. Construction from a string requires length 24 and decodes it
with `bytes.fromhex`, which accepts hexadecimal digits of either letter case
and skips ASCII whitespace between byte pairs (but not inside a pair); when the
decode fails, bson raises `bson.errors.InvalidId`. bson does not re-check that
the decoded result has 12 bytes, so a length-24 string containing whitespace
decodes to fewer than 12 bytes and is accepted. `str(oid)` renders the stored
bytes as lowercase hexadecimal characters.
-/

/-- A value of the native identifier type: its 12 bytes. -/
abbrev BsonOid : Type := List Nat

/-- The byte-level invariant of a native identifier: 12 bytes, each below 256. -/
def BsonOid.isValid (o : BsonOid) : Prop :=
  o.length = 12 ∧ ∀ b ∈ o, b < 256

instance (o : BsonOid) : Decidable o.isValid :=
  inferInstanceAs (Decidable (o.length = 12 ∧ ∀ b ∈ o, b < 256))

/-- Numeric value of one hexadecimal digit character, as accepted by
`bytes.fromhex`: `0`-`9` (codes 48-57), `a`-`f` (codes 97-102), `A`-`F`
(codes 65-70). -/
def hexVal? (c : Char) : Option Nat :=
  if 48 ≤ c.toNat ∧ c.toNat ≤ 57 then some (c.toNat - 48)
  else if 97 ≤ c.toNat ∧ c.toNat ≤ 102 then some (c.toNat - 87)
  else if 65 ≤ c.toNat ∧ c.toNat ≤ 70 then some (c.toNat - 55)
  else none

/-- The lowercase hexadecimal digit for `n < 16`, as produced by `"%x"`
formatting: `0`-`9` then `a`-`f`. -/
def toHexDigit (n : Nat) : Char :=
  Char.ofNat (if n < 10 then 48 + n else 87 + n)

/-- The ASCII whitespace characters that `bytes.fromhex` skips: space (32) and
tab through carriage return (9-13). -/
def isAsciiSpace (c : Char) : Bool :=
  c.toNat == 32 || (9 ≤ c.toNat && c.toNat ≤ 13)

/-- `bytes.fromhex` on a character list: skip ASCII whitespace between byte
pairs; each pair of hexadecimal digits yields one byte; fail on a lone trailing
digit or on a non-digit (whitespace included) in the second position of a
pair. -/
def bytesFromhex : List Char → Option (List Nat)
  | [] => some []
  | [c] => if isAsciiSpace c then some [] else none
  | c :: c2 :: rest =>
    if isAsciiSpace c then bytesFromhex (c2 :: rest)
    else
      match hexVal? c, hexVal? c2, bytesFromhex rest with
      | some h, some l, some bs => some ((16 * h + l) :: bs)
      | _, _, _ => none

/-- The two lowercase hexadecimal characters of one byte. -/
def byteToHexPair (b : Nat) : List Char :=
  [toHexDigit (b / 16), toHexDigit (b % 16)]

/-- `str(oid)`: the canonical string rendering of a native identifier — its
bytes as lowercase hexadecimal. -/
def bsonOidToString (o : BsonOid) : String :=
  String.mk (o.flatMap byteToHexPair)

/-- The native `ObjectId` constructor on a string argument: `InvalidId` unless
the string has length 24 and `bytes.fromhex` decodes it; the decoded bytes are
stored without a 12-byte re-check. -/
def bsonOidOfString (s : String) : Except PyError BsonOid :=
  if s.toList.length = 24 then
    match bytesFromhex s.toList with
    | some bs => Except.ok bs
    | none => Except.error (PyError.invalidId s)
  else Except.error (PyError.invalidId s)

/-- A string is a valid canonical identifier representation when it is the
24-character lowercase hexadecimal form that canonical rendering produces. -/
def isCanonicalRepr (s : String) : Bool :=
  s.toList.length == 24 &&
    s.toList.all (fun c => (48 ≤ c.toNat && c.toNat ≤ 57) || (97 ≤ c.toNat && c.toNat ≤ 102))

/-! ## The identifier adapter (`src/kaiwadb/types/object_id.py`)

`ObjectId.__get_pydantic_core_schema__` returns
`json_or_python_schema(json_schema=str_schema(), python_schema=union_schema([
is_instance_schema(_ObjectId), no_info_plain_validator_function(lambda x:
cls(x))]), serialization=plain_serializer_function_ser_schema(lambda x: str(x),
when_used="json"))`. The three hook points are embedded separately below.
-/

/-- The Python-mode inputs relevant to the adapter: a value that already is a
native identifier, or a string. (Other Python inputs — bytes, `None`, … — are
outside the modelled domain.) -/
inductive PyVal where
  | oid (v : BsonOid)
  | str (s : String)

/-- Python-mode validation of the adapter:
`union_schema([is_instance_schema(_ObjectId), no_info_plain_validator_function(lambda x: cls(x))])`.
A native identifier instance matches the `is_instance` branch and is accepted
unchanged; a string falls through to `lambda x: cls(x)`, the inherited native
constructor, whose error propagates uncaught. -/
def objectIdPythonValidate : PyVal → Except PyError BsonOid
  | PyVal.oid v => Except.ok v
  | PyVal.str s => bsonOidOfString s

/-- The JSON primitive values relevant to the adapter's JSON-mode schema. -/
inductive JsonVal where
  | str (s : String)
  | num (n : Int)
  | null

/-- JSON-mode validation of the adapter: `json_schema=core_schema.str_schema()`
— a plain string schema. Any JSON string is accepted as-is; no identifier
validation runs in this mode. -/
def objectIdJsonValidate : JsonVal → Except ValidationError String
  | JsonVal.str s => Except.ok s
  | _ => Except.error ValidationError.stringType

/-- JSON serialization of the adapter: the serializer `lambda x: str(x)` with
`when_used="json"` — the canonical string rendering of the identifier. -/
def objectIdSerializeJson (x : BsonOid) : String :=
  bsonOidToString x

/-! ## Hexadecimal digit lemmas -/

/-- Forward digit table: for `n < 16`, the lowercase digit of `n` reads back as
`n`, is a lowercase hexadecimal character, and is not ASCII whitespace. -/
lemma hexDigit_table : ∀ m : Fin 16,
    hexVal? (toHexDigit m.val) = some m.val ∧
    ((48 ≤ (toHexDigit m.val).toNat && (toHexDigit m.val).toNat ≤ 57) ||
      (97 ≤ (toHexDigit m.val).toNat && (toHexDigit m.val).toNat ≤ 102)) = true ∧
    isAsciiSpace (toHexDigit m.val) = false := by
  decide

lemma hexVal?_toHexDigit (n : Nat) (h : n < 16) :
    hexVal? (toHexDigit n) = some n := by
  exact (hexDigit_table ⟨n, h⟩).1

lemma toHexDigit_lower (n : Nat) (h : n < 16) :
    ((48 ≤ (toHexDigit n).toNat && (toHexDigit n).toNat ≤ 57) ||
      (97 ≤ (toHexDigit n).toNat && (toHexDigit n).toNat ≤ 102)) = true := by
  exact (hexDigit_table ⟨n, h⟩).2.1

lemma toHexDigit_not_space (n : Nat) (h : n < 16) :
    isAsciiSpace (toHexDigit n) = false := by
  exact (hexDigit_table ⟨n, h⟩).2.2

/-- A lowercase hexadecimal character is not ASCII whitespace. -/
lemma lower_not_space (c : Char)
    (h : ((48 ≤ c.toNat && c.toNat ≤ 57) || (97 ≤ c.toNat && c.toNat ≤ 102)) = true) :
    isAsciiSpace c = false := by
  simp only [Bool.or_eq_true, Bool.and_eq_true, decide_eq_true_eq] at h
  rw [Bool.eq_false_iff]
  intro htrue
  rw [isAsciiSpace, Bool.or_eq_true, Bool.and_eq_true] at htrue
  simp only [beq_iff_eq, decide_eq_true_eq] at htrue
  omega

/-- Reverse digit lemma: a lowercase hexadecimal character is the digit of its
value, which is below 16. -/
lemma hexVal?_lower_inv (c : Char)
    (h : ((48 ≤ c.toNat && c.toNat ≤ 57) || (97 ≤ c.toNat && c.toNat ≤ 102)) = true) :
    ∃ n, n < 16 ∧ hexVal? c = some n ∧ toHexDigit n = c := by
  simp only [Bool.or_eq_true, Bool.and_eq_true, decide_eq_true_eq] at h
  unfold hexVal? toHexDigit
  rcases h with ⟨h1, h2⟩ | ⟨h1, h2⟩
  · refine ⟨c.toNat - 48, by omega, ?_, ?_⟩
    · rw [if_pos ⟨h1, h2⟩]
    · rw [if_pos (by omega)]
      have : 48 + (c.toNat - 48) = c.toNat := by omega
      rw [this, Char.ofNat_toNat]
  · refine ⟨c.toNat - 87, by omega, ?_, ?_⟩
    · rw [if_neg (by omega), if_pos ⟨h1, h2⟩]
    · rw [if_neg (by omega)]
      have : 87 + (c.toNat - 87) = c.toNat := by omega
      rw [this, Char.ofNat_toNat]

/-! ## Round-trip lemmas between bytes and hexadecimal strings -/

/-- Parsing inverts rendering: the hexadecimal pairs of a list of bytes decode
back to those bytes. -/
lemma bytesFromhex_flatMap (o : List Nat) (h : ∀ b ∈ o, b < 256) :
    bytesFromhex (o.flatMap byteToHexPair) = some o := by
  induction o with
  | nil => rfl
  | cons b rest ih =>
    have hb : b < 256 := h b (List.mem_cons_self b rest)
    have hhi : b / 16 < 16 := by omega
    have hlo : b % 16 < 16 := by omega
    have hrest : bytesFromhex (rest.flatMap byteToHexPair) = some rest :=
      ih (fun x hx => h x (List.mem_cons_of_mem b hx))
    have hbeq : 16 * (b / 16) + b % 16 = b := by omega
    show bytesFromhex
      (toHexDigit (b / 16) :: toHexDigit (b % 16) :: rest.flatMap byteToHexPair) = some (b :: rest)
    rw [bytesFromhex, if_neg (by rw [toHexDigit_not_space _ hhi]; simp),
      hexVal?_toHexDigit _ hhi, hexVal?_toHexDigit _ hlo, hrest]
    show some ((16 * (b / 16) + b % 16) :: rest) = some (b :: rest)
    rw [hbeq]

/-- Rendering a list of bytes yields two characters per byte. -/
lemma flatMap_byteToHexPair_length (o : List Nat) :
    (o.flatMap byteToHexPair).length = 2 * o.length := by
  induction o with
  | nil => rfl
  | cons b rest ih =>
    show (byteToHexPair b ++ rest.flatMap byteToHexPair).length = 2 * (rest.length + 1)
    rw [List.length_append, ih]
    simp [byteToHexPair]
    omega

/-- Every character rendered for a byte below 256 is a lowercase hexadecimal
character. -/
lemma flatMap_byteToHexPair_lower (o : List Nat) (h : ∀ b ∈ o, b < 256) :
    ∀ c ∈ o.flatMap byteToHexPair,
      ((48 ≤ c.toNat && c.toNat ≤ 57) || (97 ≤ c.toNat && c.toNat ≤ 102)) = true := by
  induction o with
  | nil => intro c hc; simp at hc
  | cons b rest ih =>
    intro c hc
    have hb : b < 256 := h b (List.mem_cons_self b rest)
    rw [List.flatMap_cons, List.mem_append] at hc
    rcases hc with hc | hc
    · simp only [byteToHexPair, List.mem_cons, List.not_mem_nil, or_false] at hc
      rcases hc with hc | hc
      · rw [hc]; exact toHexDigit_lower _ (by omega)
      · rw [hc]; exact toHexDigit_lower _ (by omega)
    · exact ih (fun x hx => h x (List.mem_cons_of_mem b hx)) c hc

/-- Rendering inverts parsing on lowercase hexadecimal character lists (which
hold no whitespace, so no skipping occurs). -/
lemma flatMap_bytesFromhex (cs : List Char)
    (hlow : ∀ c ∈ cs, ((48 ≤ c.toNat && c.toNat ≤ 57) || (97 ≤ c.toNat && c.toNat ≤ 102)) = true) :
    ∀ bs, bytesFromhex cs = some bs → bs.flatMap byteToHexPair = cs := by
  induction cs using bytesFromhex.induct with
  | case1 =>
    intro bs hbs
    cases hbs
    rfl
  | case2 c hws =>
    intro bs hbs
    rw [lower_not_space c (hlow c (by simp))] at hws
    cases hws
  | case3 c hws =>
    intro bs hbs
    rw [bytesFromhex, if_neg hws] at hbs
    cases hbs
  | case4 c c2 rest hws ih =>
    intro bs hbs
    rw [lower_not_space c (hlow c (by simp))] at hws
    cases hws
  | case5 c c2 rest hws h l bs hrest hl2 hl1 ih =>
    intro bs' hbs'
    rw [bytesFromhex, if_neg hws, hl1, hl2, hrest] at hbs'
    cases hbs'
    obtain ⟨n1, hn1lt, hn1, hd1⟩ :=
      hexVal?_lower_inv c (hlow c (by simp))
    obtain ⟨n2, hn2lt, hn2, hd2⟩ :=
      hexVal?_lower_inv c2 (hlow c2 (by simp))
    rw [hn1] at hl1
    rw [hn2] at hl2
    cases hl1
    cases hl2
    show byteToHexPair (16 * h + l) ++ bs.flatMap byteToHexPair = c :: c2 :: rest
    have e1 : (16 * h + l) / 16 = h := by omega
    have e2 : (16 * h + l) % 16 = l := by omega
    rw [byteToHexPair, e1, e2, hd1, hd2]
    have := ih (fun x hx => hlow x (by simp [hx])) bs hrest
    rw [List.cons_append, List.cons_append, List.nil_append, this]
  | case6 c c2 rest hws hfail ih =>
    intro bs' hbs'
    exfalso
    rw [bytesFromhex, if_neg hws] at hbs'
    cases e1 : hexVal? c with
    | none => rw [e1] at hbs'; simp at hbs'
    | some h =>
      cases e2 : hexVal? c2 with
      | none => rw [e1, e2] at hbs'; simp at hbs'
      | some l =>
        cases e3 : bytesFromhex rest with
        | none => rw [e1, e2, e3] at hbs'; simp at hbs'
        | some bs => exact hfail h l bs e1 e2 e3

/-- Parsing succeeds on every even-length lowercase hexadecimal character
list. -/
lemma bytesFromhex_total (cs : List Char)
    (hlow : ∀ c ∈ cs, ((48 ≤ c.toNat && c.toNat ≤ 57) || (97 ≤ c.toNat && c.toNat ≤ 102)) = true)
    (heven : cs.length % 2 = 0) :
    ∃ bs, bytesFromhex cs = some bs := by
  induction cs using bytesFromhex.induct with
  | case1 => exact ⟨[], rfl⟩
  | case2 c hws => simp at heven
  | case3 c hws => simp at heven
  | case4 c c2 rest hws ih =>
    rw [lower_not_space c (hlow c (by simp))] at hws
    cases hws
  | case5 c c2 rest hws h l bs hrest hl2 hl1 ih =>
    refine ⟨(16 * h + l) :: bs, ?_⟩
    rw [bytesFromhex, if_neg hws, hl1, hl2, hrest]
  | case6 c c2 rest hws hfail ih =>
    obtain ⟨n1, _, hn1, _⟩ := hexVal?_lower_inv c (hlow c (by simp))
    obtain ⟨n2, _, hn2, _⟩ := hexVal?_lower_inv c2 (hlow c2 (by simp))
    have hrest : rest.length % 2 = 0 := by
      simp only [List.length_cons] at heven
      omega
    obtain ⟨bs, hbs⟩ := ih (fun x hx => hlow x (by simp [hx])) hrest
    exact (hfail n1 n2 bs hn1 hn2 hbs).elim

/-- A character that is neither a hexadecimal digit nor ASCII whitespace makes
parsing fail wherever it occurs: it is never skipped, and it fails whichever
pair position it is consumed in. -/
lemma bytesFromhex_bad (cs : List Char) (c : Char) (hc : c ∈ cs)
    (hns : isAsciiSpace c = false) (hbad : hexVal? c = none) :
    bytesFromhex cs = none := by
  induction cs using bytesFromhex.induct with
  | case1 => simp at hc
  | case2 c1 hws =>
    rw [List.mem_singleton] at hc
    subst hc
    rw [hws] at hns
    cases hns
  | case3 c1 hws =>
    rw [bytesFromhex, if_neg hws]
  | case4 c1 c2 rest hws ih =>
    have hc' : c ∈ c2 :: rest := by
      rcases List.mem_cons.mp hc with rfl | hc'
      · rw [hws] at hns; cases hns
      · exact hc'
    rw [bytesFromhex, if_pos hws]
    exact ih hc'
  | case5 c1 c2 rest hws h l bs hrest hl2 hl1 ih =>
    exfalso
    rcases List.mem_cons.mp hc with rfl | hc'
    · rw [hl1] at hbad; cases hbad
    · rcases List.mem_cons.mp hc' with rfl | hc''
      · rw [hl2] at hbad; cases hbad
      · rw [ih hc''] at hrest; cases hrest
  | case6 c1 c2 rest hws hfail ih =>
    rw [bytesFromhex, if_neg hws]
    cases e1 : hexVal? c1 with
    | none => rfl
    | some h =>
      cases e2 : hexVal? c2 with
      | none => rfl
      | some l =>
        cases e3 : bytesFromhex rest with
        | none => rfl
        | some bs => exact (hfail h l bs e1 e2 e3).elim

/-! ## Claim theorems -/

/-- C2: for every combination of the other arguments (default, db_name,
description, relation), calling `Field` with any non-`None` `examples` value
raises `NotImplementedError` and never returns a field descriptor. -/
theorem field_examples_raises {α : Type} (default : PyDefault α)
    (db_name description : Option String) (ex : List α)
    (relation : Option (RelationSpec α)) :
    Field default db_name description (some ex) relation =
      Except.error
        (PyError.notImplementedError "Field examples are not yet implemented") :=
  rfl

/-- C3: for every combination of the other arguments (default, db_name,
description, examples), calling `Field` with any non-`None` `relation` value
raises `NotImplementedError` and never returns a field descriptor. -/
theorem field_relation_raises {α : Type} (default : PyDefault α)
    (db_name description : Option String) (examples : Option (List α))
    (rel : RelationSpec α) :
    ∃ msg, Field default db_name description examples (some rel) =
      Except.error (PyError.notImplementedError msg) := by
  cases examples with
  | none => exact ⟨"Field relations are not yet implemented", rfl⟩
  | some ex => exact ⟨"Field examples are not yet implemented", rfl⟩

/-- C10: when `Field` is called with both `examples` and `relation` non-`None`,
the failure raised is the one for `examples` — the `examples` check is
evaluated before the `relation` check. -/
theorem field_examples_checked_before_relation {α : Type} (default : PyDefault α)
    (db_name description : Option String) (ex : List α) (rel : RelationSpec α) :
    Field default db_name description (some ex) (some rel) =
      Except.error
        (PyError.notImplementedError "Field examples are not yet implemented") :=
  rfl

/-- C1: for a schema field declared with `Field(..., db_name=X)` where `X`
differs from the declared attribute name, constructing an instance from a
mapping containing key `X` succeeds and populates that field, while
constructing from a mapping containing only the declared name fails with a
validation failure. -/
theorem field_alias_external_key {α : Type} (name X : String)
    (desc : Option String) (fi : FieldInfo α) (input : List (String × α))
    (v w : α) (hne : X ≠ name)
    (hf : Field PyDefault.ellipsis (some X) desc none none = Except.ok fi)
    (hv : lookupKey input X = some v) :
    modelValidate (singleFieldSchema name fi) input = Except.ok [(name, v)] ∧
    modelValidate (singleFieldSchema name fi) [(name, w)] =
      Except.error (ValidationError.missing name) := by
  have h1 : (Except.ok (FieldInfo.mk PyDefault.ellipsis (some X) desc) :
      Except PyError (FieldInfo α)) = Except.ok fi := hf
  injection h1 with h2
  subst h2
  constructor
  · simp only [modelValidate, singleFieldSchema, validateFields, validateField,
      fieldExternalName, Option.getD]
    rw [hv]
  · have hne' : (name == X) = false := by
      simp only [beq_eq_false_iff_ne, ne_eq]
      exact fun hEq => hne hEq.symm
    simp only [modelValidate, singleFieldSchema, validateFields, validateField,
      fieldExternalName, Option.getD, lookupKey, List.find?, hne']
    rfl

/-- C1 witness: a `user_id` field aliased to `id`, validated against
`{"id": 42}` and against `{"user_id": 42}`. -/
theorem field_alias_external_key_witness :
    modelValidate
        (singleFieldSchema "user_id"
          (FieldInfo.mk PyDefault.ellipsis (some "id") none))
        [("id", (42 : Nat))] = Except.ok [("user_id", 42)] ∧
    modelValidate
        (singleFieldSchema "user_id"
          (FieldInfo.mk PyDefault.ellipsis (some "id") none))
        [("user_id", (42 : Nat))] =
      Except.error (ValidationError.missing "user_id") :=
  field_alias_external_key "user_id" "id" none _ [("id", 42)] 42 42
    (by decide) rfl rfl

/-- C9: for a field declared with `Field` where `db_name` is omitted, the
external (structured/aliased) name equals the declared attribute name, and
both construction and serialization use the declared name. -/
theorem field_no_alias_uses_declared_name {α : Type} (default : PyDefault α)
    (desc : Option String) (fi : FieldInfo α) (name : String) (v : α)
    (hf : Field default none desc none none = Except.ok fi) :
    fieldExternalName name fi = name ∧
    modelValidate (singleFieldSchema name fi) [(name, v)] =
      Except.ok [(name, v)] ∧
    modelDumpByAlias (singleFieldSchema name fi) [(name, v)] = [(name, v)] := by
  have h1 : (Except.ok (FieldInfo.mk default none desc) :
      Except PyError (FieldInfo α)) = Except.ok fi := hf
  injection h1 with h2
  subst h2
  refine ⟨rfl, ?_, ?_⟩
  · simp [modelValidate, singleFieldSchema, validateFields, validateField,
      fieldExternalName, lookupKey, List.find?]
  · simp [modelDumpByAlias, singleFieldSchema, fieldExternalName, lookupKey,
      List.find?]

/-- C9 witness: an unaliased `email` field keeps `email` as its external name
for construction and serialization. -/
theorem field_no_alias_uses_declared_name_witness :
    fieldExternalName "email"
        (FieldInfo.mk (PyDefault.ellipsis : PyDefault Nat) none none) = "email" ∧
    modelValidate
        (singleFieldSchema "email"
          (FieldInfo.mk PyDefault.ellipsis none none))
        [("email", (7 : Nat))] = Except.ok [("email", 7)] ∧
    modelDumpByAlias
        (singleFieldSchema "email"
          (FieldInfo.mk PyDefault.ellipsis none none))
        [("email", (7 : Nat))] = [("email", 7)] :=
  field_no_alias_uses_declared_name PyDefault.ellipsis none _ "email" 7 rfl

/-- C5: in JSON mode the adapter's schema is a plain string schema, so every
string is accepted as-is, with no identifier-format validation. -/
theorem objectId_json_mode_accepts_any_string (s : String) :
    objectIdJsonValidate (JsonVal.str s) = Except.ok s :=
  rfl

/-- C7: Python-mode validation accepts a native identifier value unchanged —
acceptance is the identity on native identifier values. -/
theorem objectId_native_value_identity (v : BsonOid) (_h : v.isValid) :
    objectIdPythonValidate (PyVal.oid v) = Except.ok v :=
  rfl

/-- C7 witness: the all-zero identifier is accepted unchanged. -/
theorem objectId_native_value_identity_witness :
    objectIdPythonValidate (PyVal.oid (List.replicate 12 0)) =
      Except.ok (List.replicate 12 0) :=
  objectId_native_value_identity (List.replicate 12 0) (by decide)

/-- C6: every valid canonical identifier representation is accepted by the
adapter in Python mode, and the canonical string rendering of the constructed
identifier is exactly the input string. -/
theorem objectId_canonical_roundtrip (s : String)
    (h : isCanonicalRepr s = true) :
    ∃ o, objectIdPythonValidate (PyVal.str s) = Except.ok o ∧
      bsonOidOfString s = Except.ok o ∧ bsonOidToString o = s := by
  unfold isCanonicalRepr at h
  rw [Bool.and_eq_true, beq_iff_eq, List.all_eq_true] at h
  obtain ⟨hlen, hlow⟩ := h
  have hlow' : ∀ c ∈ s.toList,
      ((48 ≤ c.toNat && c.toNat ≤ 57) || (97 ≤ c.toNat && c.toNat ≤ 102)) = true :=
    fun c hc => hlow c hc
  have heven : s.toList.length % 2 = 0 := by rw [hlen]
  obtain ⟨bs, hbs⟩ := bytesFromhex_total s.toList hlow' heven
  have hok : bsonOidOfString s = Except.ok bs := by
    rw [bsonOidOfString, if_pos hlen, hbs]
  refine ⟨bs, hok, hok, ?_⟩
  show String.mk (bs.flatMap byteToHexPair) = s
  rw [flatMap_bytesFromhex s.toList hlow' bs hbs]
  rfl

/-- C6 witness: the canonical string `00112233445566778899aabb` round-trips. -/
theorem objectId_canonical_roundtrip_witness :
    ∃ o, objectIdPythonValidate (PyVal.str "00112233445566778899aabb") =
        Except.ok o ∧
      bsonOidOfString "00112233445566778899aabb" = Except.ok o ∧
      bsonOidToString o = "00112233445566778899aabb" :=
  objectId_canonical_roundtrip "00112233445566778899aabb" (by decide)

/-- C4 counterexample: two non-canonical length-24 strings the adapter accepts
in Python mode. `AAAAAAAAAAAAAAAAAAAAAAAA` is not canonical (canonical
rendering is lowercase) yet decodes, because `bytes.fromhex` accepts either
letter case; `aabbccddeeff0011223344␣␣` (22 hexadecimal digits and two
trailing spaces) is not canonical yet decodes to 11 bytes, because
`bytes.fromhex` skips ASCII whitespace and bson does not re-check the decoded
length. -/
theorem objectId_noncanonical_string_accepted :
    isCanonicalRepr "AAAAAAAAAAAAAAAAAAAAAAAA" = false ∧
    objectIdPythonValidate (PyVal.str "AAAAAAAAAAAAAAAAAAAAAAAA") =
      Except.ok (List.replicate 12 170) ∧
    isCanonicalRepr "aabbccddeeff0011223344  " = false ∧
    objectIdPythonValidate (PyVal.str "aabbccddeeff0011223344  ") =
      Except.ok [170, 187, 204, 221, 238, 255, 0, 17, 34, 51, 68] := by
  exact ⟨by decide, rfl, by decide, rfl⟩

/-- C4 (amended): for every string that does not have length 24, or that
contains a character that is neither a hexadecimal digit (either letter case)
nor ASCII whitespace, Python-mode construction fails, and the failure is the
native constructor's own `InvalidId` error, propagated uncaught by the
adapter. -/
theorem objectId_invalid_string_native_error (s : String)
    (h : s.toList.length ≠ 24 ∨
      ∃ c ∈ s.toList, isAsciiSpace c = false ∧ hexVal? c = none) :
    objectIdPythonValidate (PyVal.str s) =
      Except.error (PyError.invalidId s) ∧
    bsonOidOfString s = Except.error (PyError.invalidId s) := by
  suffices hs : bsonOidOfString s = Except.error (PyError.invalidId s) from
    ⟨hs, hs⟩
  rw [bsonOidOfString]
  rcases h with hlen | ⟨c, hc, hns, hbad⟩
  · rw [if_neg hlen]
  · by_cases hlen : s.toList.length = 24
    · rw [if_pos hlen, bytesFromhex_bad s.toList c hc hns hbad]
    · rw [if_neg hlen]

/-- C4 (amended) witness: `zz` has the wrong length, and the length-24 string
of 24 `z` characters contains a non-digit non-whitespace character; both fail
with the native `InvalidId` error. -/
theorem objectId_invalid_string_native_error_witness :
    (objectIdPythonValidate (PyVal.str "zz") =
      Except.error (PyError.invalidId "zz") ∧
    bsonOidOfString "zz" = Except.error (PyError.invalidId "zz")) ∧
    (objectIdPythonValidate (PyVal.str "zzzzzzzzzzzzzzzzzzzzzzzz") =
      Except.error (PyError.invalidId "zzzzzzzzzzzzzzzzzzzzzzzz") ∧
    bsonOidOfString "zzzzzzzzzzzzzzzzzzzzzzzz" =
      Except.error (PyError.invalidId "zzzzzzzzzzzzzzzzzzzzzzzz")) :=
  ⟨objectId_invalid_string_native_error "zz" (by decide),
    objectId_invalid_string_native_error "zzzzzzzzzzzzzzzzzzzzzzzz" (by decide)⟩

/-- C8: serializing an identifier to structured/JSON form applies the
serializer `str`, and the result is the identifier's canonical string
representation — a 24-character lowercase hexadecimal string that decodes back
to the same identifier, never the native in-memory form. -/
theorem objectId_json_serialization_canonical (v : BsonOid) (h : v.isValid) :
    objectIdSerializeJson v = bsonOidToString v ∧
    isCanonicalRepr (objectIdSerializeJson v) = true ∧
    bsonOidOfString (objectIdSerializeJson v) = Except.ok v := by
  obtain ⟨hlen, hbound⟩ := h
  have htl : (String.mk (v.flatMap byteToHexPair)).toList =
      v.flatMap byteToHexPair := rfl
  have hlen24 : (String.mk (v.flatMap byteToHexPair)).toList.length = 24 := by
    rw [htl, flatMap_byteToHexPair_length, hlen]
  refine ⟨rfl, ?_, ?_⟩
  · show isCanonicalRepr (String.mk (v.flatMap byteToHexPair)) = true
    unfold isCanonicalRepr
    rw [Bool.and_eq_true, beq_iff_eq, List.all_eq_true]
    exact ⟨hlen24, fun c hc =>
      flatMap_byteToHexPair_lower v hbound c (htl ▸ hc)⟩
  · show bsonOidOfString (String.mk (v.flatMap byteToHexPair)) = Except.ok v
    rw [bsonOidOfString, if_pos hlen24]
    have hparse :
        bytesFromhex ((String.mk (v.flatMap byteToHexPair)).toList) = some v := by
      rw [htl]
      exact bytesFromhex_flatMap v hbound
    rw [hparse]

/-- C8 witness: the all-255 identifier serializes to 24 lowercase `f`
characters that decode back to it. -/
theorem objectId_json_serialization_canonical_witness :
    objectIdSerializeJson (List.replicate 12 255) =
      bsonOidToString (List.replicate 12 255) ∧
    isCanonicalRepr (objectIdSerializeJson (List.replicate 12 255)) = true ∧
    bsonOidOfString (objectIdSerializeJson (List.replicate 12 255)) =
      Except.ok (List.replicate 12 255) :=
  objectId_json_serialization_canonical (List.replicate 12 255) (by decide)

end KaiwaDB
